import Mathlib

/-!
Shallow embedding of the gencruit-backend authentication/authorization core
(Express + Mongoose job board).  Strings are modelled as lists of characters
(`Str`); JavaScript falsiness, the bcrypt library, JWT tokens and the Mongoose
save pipeline are modelled as executable Lean functions; every route handler
is a pure function from its inputs (database, request body, clock, secret)
to a new database and an HTTP response.
-/

set_option linter.unusedVariables false

/-- Strings of the JS program, modelled as lists of characters. -/
abbrev Str := List Char

/-- Converts a Lean string literal to the `Str` representation. -/
def str (s : String) : Str := s.data

/-- The space character (used by the JS `split` on the Authorization header). -/
def spaceChar : Char := Char.ofNat 32

/-- JS `String.prototype.toLowerCase`, as used by the Mongoose `lowercase` setter. -/
def lowerStr (s : Str) : Str := s.map Char.toLower

/-- Leading/trailing whitespace removal: the Mongoose `trim` setter. -/
def trimStr (s : Str) : Str :=
  ((s.dropWhile Char.isWhitespace).reverse.dropWhile Char.isWhitespace).reverse

/-- express-validator `notEmpty` on a field. -/
def notEmpty (s : Str) : Bool := !s.isEmpty

/-- JS `String.prototype.split(sep)` (used on the Authorization header). -/
def jsSplit (sep : Char) : Str → List Str
  | [] => [[]]
  | c :: cs =>
    let rest := jsSplit sep cs
    if c = sep then [] :: rest
    else
      match rest with
      | [] => [[c]]
      | r :: rs => (c :: r) :: rs

/-- Model of the external express-validator `isEmail` check: one `@` sign,
non-empty local part, non-empty domain containing a dot.  The routes treat the
validator as a black box, so only its role as a gate matters. -/
def isEmail (s : Str) : Bool :=
  match jsSplit '@' s with
  | [lp, dom] => !lp.isEmpty && !dom.isEmpty && dom.contains '.'
  | _ => false

/-- JSON values sent back to clients by `res.json`. -/
inductive Json where
  | num (n : Int)
  | strv (s : Str)
  | jbool (b : Bool)
  | jnull
  | obj (fields : List (Str × Json))
  | arr (elems : List Json)

/-- The keys of a JSON object (empty for non-objects). -/
def Json.keysOf : Json → List Str
  | .obj fs => fs.map (fun kv => kv.1)
  | _ => []

/-- An HTTP response: status code plus JSON body. -/
structure HttpResp where
  status : Nat
  body : Json

/-- A JS error object as it reaches the global error handler: `message` plus
the optional `statusCode` set by `utils/customError.js`. -/
structure JsError where
  message : Str
  statusCode : Option Nat
deriving DecidableEq

/-- JS `a || b` on the numeric `err.statusCode` (`undefined` and `0` are falsy). -/
def jsOrNat : Option Nat → Nat → Nat
  | some n, d => if n = 0 then d else n
  | none, d => d

/-- JS `a || b` on a string (the empty string is falsy). -/
def jsOrStr (s : Str) (d : Str) : Str := if s.isEmpty then d else s

/-- middleware/errorHandler.js: the single terminal error-translation point.
Status defaults to 500; body is the uniform failure shape. -/
def errorHandler (err : JsError) : HttpResp :=
  { status := jsOrNat err.statusCode 500,
    body := .obj [(str r"success", .jbool false),
                  (str r"message", .strv (jsOrStr err.message (str r"Something went wrong on the server!")))] }

/-- Recognises the uniform error body produced by `errorHandler`. -/
def isUniformErrBody : Json → Bool
  | .obj [(k1, .jbool false), (k2, .strv _)] => k1 == str r"success" && k2 == str r"message"
  | _ => false

/-! ## bcrypt model

`bcrypt.hash` is modelled as an injective tagged encoding of (salt, password):
the 60-byte `$2b$10$<salt><digest>` output becomes a fixed 7-character prefix,
a unary salt, a delimiter and the password material.  `bcrypt.compare`
re-derives the comparison value from the stored salt exactly as the library
recomputes the digest.  What matters for the claims is preserved: comparing
the original password succeeds, comparing any other password fails, and the
hash is never equal to the plaintext. -/

/-- The fixed bcrypt version/cost prefix of a stored hash. -/
def bcryptPrefix : Str := str r"$2b$10$"

/-- Model of `bcrypt.hash(pw, salt)`: salt rendered as a run of `'0'`, then a
delimiter, then the password-derived material. -/
def bcryptHash (salt : Nat) (pw : Str) : Str :=
  bcryptPrefix ++ List.replicate salt '0' ++ '$' :: pw

/-- Model of `bcrypt.compare(pw, stored)`: extract the salt from the stored
value and recompute the hash with that salt. -/
def bcryptCompare (pw stored : Str) : Bool :=
  stored == bcryptPrefix ++ (stored.drop 7).takeWhile (fun c => c == '0') ++ '$' :: pw

theorem takeWhile_rep {a b : Char} (hb : (b == a) = false) (n : Nat) (l : Str) :
    (List.replicate n a ++ b :: l).takeWhile (fun c => c == a) = List.replicate n a := by
  induction n with
  | zero => simp [List.takeWhile, hb]
  | succ k ih => simp [List.replicate_succ, List.takeWhile, ih]

theorem length_bcryptHash (salt : Nat) (pw : Str) :
    (bcryptHash salt pw).length = 8 + salt + pw.length := by
  simp [bcryptHash, bcryptPrefix, str]
  omega

/-- The stored bcrypt value is never the submitted plaintext. -/
theorem bcryptHash_ne_plaintext (salt : Nat) (pw : Str) : bcryptHash salt pw ≠ pw := by
  intro h
  have := congrArg List.length h
  rw [length_bcryptHash] at this
  omega

/-- Comparison via `bcrypt.compare` recognises exactly the password the hash was derived from. -/
theorem bcryptCompare_hash_iff (q pw : Str) (salt : Nat) :
    bcryptCompare q (bcryptHash salt pw) = true ↔ q = pw := by
  have hdrop : (bcryptHash salt pw).drop 7 = List.replicate salt '0' ++ '$' :: pw := by
    have h7 : (7 : Nat) = bcryptPrefix.length := by decide
    rw [bcryptHash, h7, List.append_assoc, List.drop_left]
  have htake : ((bcryptHash salt pw).drop 7).takeWhile (fun c => c == '0')
      = List.replicate salt '0' := by
    rw [hdrop]; exact takeWhile_rep (by decide) salt pw
  constructor
  · intro h
    rw [bcryptCompare, htake, beq_iff_eq, bcryptHash] at h
    have h2 := List.append_cancel_left h
    exact ((List.cons.injEq _ _ _ _).mp h2).2.symm
  · intro h
    subst h
    rw [bcryptCompare, htake, beq_iff_eq, bcryptHash]

theorem bcryptCompare_hash_self (pw : Str) (salt : Nat) :
    bcryptCompare pw (bcryptHash salt pw) = true :=
  (bcryptCompare_hash_iff pw pw salt).mpr rfl

theorem bcryptCompare_hash_ne (q pw : Str) (salt : Nat) (h : q ≠ pw) :
    bcryptCompare q (bcryptHash salt pw) = false := by
  cases hc : bcryptCompare q (bcryptHash salt pw) with
  | false => rfl
  | true => exact absurd ((bcryptCompare_hash_iff q pw salt).mp hc) h

/-! ## Credential Store: models/User.js -/

/-- A persisted user document. -/
structure UserRec where
  id : Nat
  name : Str
  email : Str
  password : Str
  role : Str
deriving DecidableEq

/-- Mongoose save pipeline for `User`: `trim`/`lowercase` setters, required
and enum validation, and the pre-save hook that bcrypt-hashes whatever is in
the `password` path.  `salt` stands for the per-save random bcrypt salt. -/
def mongooseSaveUser (salt : Nat) (u : UserRec) : Except JsError UserRec :=
  let v : UserRec :=
    { u with
      name := trimStr u.name,
      email := lowerStr (trimStr u.email),
      password := bcryptHash salt u.password }
  if v.name.isEmpty then .error { message := str r"User validation failed", statusCode := none }
  else if v.email.isEmpty then .error { message := str r"User validation failed", statusCode := none }
  else if v.password.length < 6 then .error { message := str r"User validation failed", statusCode := none }
  else if !([str r"admin", str r"recruiter", str r"candidate"].contains v.role) then
    .error { message := str r"User validation failed", statusCode := none }
  else .ok v

/-- Lookup `User.findOne({ email })`: the `lowercase`/`trim` setters run on the query
filter as well, so the lookup is case-insensitive. -/
def findUserByEmail (db : List UserRec) (email : Str) : Option UserRec :=
  db.find? (fun u => u.email == lowerStr (trimStr email))

/-! ## Token Service: jsonwebtoken model

A JWT is a signed claim set.  The payload carries the subject id, the role
(absent in the `routes/auth.js` login variant), issued-at and expiry.  The
HMAC signature is modelled symbolically as the pair (secret, signed payload):
verification recomputes it from the transmitted payload and the process
secret.  The opaque token string is an injective encoding of payload and
signature (unary numbers, delimiter-terminated, length-prefixed role). -/

/-- Decoded JWT claims. -/
structure JwtPayload where
  userId : Nat
  role : Option Str
  iat : Nat
  exp : Nat
deriving DecidableEq

/-- A signed token before serialisation: payload plus symbolic MAC. -/
structure JwtToken where
  payload : JwtPayload
  sig : Nat × JwtPayload
deriving DecidableEq

/-- A unary-encoded, dot-terminated natural number field. -/
def unaryEnc (n : Nat) : Str := List.replicate n '1' ++ ['.']

/-- Encoding of the optional role claim (length-prefixed, so the role may
contain arbitrary characters). -/
def roleEnc : Option Str → Str
  | none => ['n']
  | some r => 's' :: (unaryEnc r.length ++ r)

/-- Serialised claim set. -/
def payloadEnc (p : JwtPayload) : Str :=
  unaryEnc p.userId ++ unaryEnc p.iat ++ unaryEnc p.exp ++ roleEnc p.role

/-- The opaque token string: claims followed by the symbolic signature. -/
def tokenEnc (t : JwtToken) : Str :=
  payloadEnc t.payload ++ unaryEnc t.sig.1 ++ payloadEnc t.sig.2

/-- Parse one unary field. -/
def readUnary (cs : Str) : Option (Nat × Str) :=
  match cs.dropWhile (fun c => c == '1') with
  | '.' :: rest => some ((cs.takeWhile (fun c => c == '1')).length, rest)
  | _ => none

/-- Parse the optional role claim. -/
def readRole : Str → Option (Option Str × Str)
  | 'n' :: rest => some (none, rest)
  | 's' :: rest =>
    match readUnary rest with
    | some (len, rest2) => some (some (rest2.take len), rest2.drop len)
    | none => none
  | _ => none

/-- Parse a claim set. -/
def readPayload (cs : Str) : Option (JwtPayload × Str) :=
  match readUnary cs with
  | none => none
  | some (uid, r1) =>
    match readUnary r1 with
    | none => none
    | some (iat, r2) =>
      match readUnary r2 with
      | none => none
      | some (exp, r3) =>
        match readRole r3 with
        | none => none
        | some (role, r4) => some ({ userId := uid, role := role, iat := iat, exp := exp }, r4)

/-- Parse a whole token string. -/
def tokenDec (cs : Str) : Option JwtToken :=
  match readPayload cs with
  | none => none
  | some (p, r1) =>
    match readUnary r1 with
    | none => none
    | some (s, r2) =>
      match readPayload r2 with
      | none => none
      | some (p2, r3) => if r3.isEmpty then some { payload := p, sig := (s, p2) } else none

/-- Signing `jwt.sign(payload, secret)`: attach the symbolic MAC and serialise. -/
def jwtSignTok (secret : Nat) (p : JwtPayload) : Str :=
  tokenEnc { payload := p, sig := (secret, p) }

/-- Verification `jwt.verify(token, secret)` at time `now`: parse, recompute the signature
from the transmitted payload and the secret, and check expiry.  Returns the
decoded claims or `none` (the thrown error) for malformed, forged or expired
tokens. -/
def jwtVerifyStr (secret now : Nat) (tok : Str) : Option JwtPayload :=
  match tokenDec tok with
  | none => none
  | some t =>
    if t.sig.1 = secret ∧ t.sig.2 = t.payload ∧ now < t.payload.exp then some t.payload else none

/-- Token issuance as done at login/signup in `src/unnamed/part_001`:
subject id and role in the payload, signed with the process secret,
`expiresIn: '1h'` (3600 seconds). -/
def issueToken (secret now : Nat) (u : UserRec) : Str :=
  jwtSignTok secret { userId := u.id, role := some u.role, iat := now, exp := now + 3600 }

theorem dropWhile_rep {a b : Char} (hb : (b == a) = false) (n : Nat) (l : Str) :
    (List.replicate n a ++ b :: l).dropWhile (fun c => c == a) = b :: l := by
  induction n with
  | zero => simp [List.dropWhile, hb]
  | succ k ih => simp [List.replicate_succ, List.dropWhile, ih]

theorem readUnary_unaryEnc (n : Nat) (rest : Str) :
    readUnary (unaryEnc n ++ rest) = some (n, rest) := by
  have h1 : (unaryEnc n ++ rest) = List.replicate n '1' ++ '.' :: rest := by
    simp [unaryEnc]
  rw [readUnary, h1, dropWhile_rep (by decide), takeWhile_rep (by decide), List.length_replicate]
  rfl

theorem readRole_roleEnc (r : Option Str) (rest : Str) :
    readRole (roleEnc r ++ rest) = some (r, rest) := by
  cases r with
  | none => rfl
  | some s =>
    show readRole ('s' :: (unaryEnc s.length ++ s ++ rest)) = some (some s, rest)
    rw [readRole, List.append_assoc, readUnary_unaryEnc]
    simp [List.take_left, List.drop_left]

theorem readPayload_payloadEnc (p : JwtPayload) (rest : Str) :
    readPayload (payloadEnc p ++ rest) = some (p, rest) := by
  simp only [payloadEnc, List.append_assoc, readPayload, readUnary_unaryEnc, readRole_roleEnc]

theorem readPayload_payloadEnc_nil (p : JwtPayload) :
    readPayload (payloadEnc p) = some (p, []) := by
  have h : payloadEnc p = payloadEnc p ++ [] := by simp
  rw [h]; exact readPayload_payloadEnc p []

theorem tokenDec_tokenEnc (t : JwtToken) : tokenDec (tokenEnc t) = some t := by
  simp only [tokenEnc, List.append_assoc, tokenDec, readPayload_payloadEnc, readUnary_unaryEnc,
    readPayload_payloadEnc_nil, List.isEmpty_nil, if_true]

/-! ## Auth Gate: the authMiddleware of middleware/auth.js (bundled in src/index.js) -/

/-- Outcome of the auth middleware: either a direct 401 response, or the
decoded claims attached to `req.user` with control passed to the next stage.
No other state is produced. -/
inductive AuthOutcome where
  | rejected (resp : HttpResp)
  | authed (user : JwtPayload)

/-- The 401 body sent when the header is missing or not a bearer header. -/
def noTokenResp : HttpResp :=
  { status := 401, body := .obj [(str r"msg", .strv (str r"No token, authorization denied"))] }

/-- The 401 body sent when `jwt.verify` throws. -/
def badTokenResp : HttpResp :=
  { status := 401, body := .obj [(str r"msg", .strv (str r"Token is not valid"))] }

/-- middleware/auth.js: extract the bearer token from the Authorization
header (`header.split(' ')[1]`), verify it, and attach the decoded claims. -/
def authMiddleware (secret now : Nat) (authHeader : Option Str) : AuthOutcome :=
  match authHeader with
  | none => .rejected noTokenResp
  | some h =>
    if (str r"Bearer ").isPrefixOf h then
      match (jsSplit spaceChar h)[1]? with
      | none => .rejected badTokenResp
      | some tok =>
        match jwtVerifyStr secret now tok with
        | none => .rejected badTokenResp
        | some decoded => .authed decoded
    else .rejected noTokenResp

/-! ## Role Gates -/

/-- A JS value as it appears in the role check: the decoded role string, an
array literal of strings, or `undefined`. -/
inductive JsVal where
  | vstr (s : Str)
  | varrStr (xs : List Str)
  | jsUndefinedVal
deriving DecidableEq

/-- The role claim of a decoded token, as seen by `req.user.role`. -/
def roleToJs : Option Str → JsVal
  | some r => .vstr r
  | none => .jsUndefinedVal

/-- middleware/authorize.js: `(...allowedRoles) => (req,res,next) => ...`.
`allowedRoles.includes(req.user.role)` with SameValueZero equality; a miss
forwards `CustomError('Access denied: insufficient role', 403)` to the
error handler, a hit calls `next()` (modelled as `none`). -/
def authorize (allowedRoles : List JsVal) (userRole : JsVal) : Option JsError :=
  if allowedRoles.contains userRole then none
  else some { message := str r"Access denied: insufficient role", statusCode := some 403 }

/-- The Role Gate exactly as configured on the job-creation route:
`authorize(['recruiter', 'admin'])` passes ONE argument (an array), so the
rest parameter receives a single-element list whose element is that array. -/
def jobsCreateGate (userRole : JsVal) : Option HttpResp :=
  (authorize [JsVal.varrStr [str r"recruiter", str r"admin"]] userRole).map errorHandler

/-- middleware/roleMiddleware.js (src/unnamed/part_000): `authorizeRoles`
responds 403 directly with a `message`-only body. -/
def authorizeRoles (allowedRoles : List Str) (userRole : Option Str) : Option HttpResp :=
  match userRole with
  | some r =>
    if allowedRoles.contains r then none
    else some { status := 403, body := .obj [(str r"message", .strv (str r"Access denied: Unauthorized role"))] }
  | none =>
    some { status := 403, body := .obj [(str r"message", .strv (str r"Access denied: Unauthorized role"))] }

/-! ## Auth routes -/

/-- A signup request body. -/
structure SignupBody where
  name : Str
  email : Str
  password : Str
  role : Option Str
deriving DecidableEq

/-- The express-validator chain shared by both signup variants:
name non-empty, email valid, password at least 6 characters. -/
def signupValid (b : SignupBody) : Bool :=
  notEmpty b.name && isEmail b.email && decide (6 ≤ b.password.length)

/-- JS `['candidate','recruiter'].includes(role)` where `role` may be absent. -/
def jsIncludes (l : List Str) : Option Str → Bool
  | some s => l.contains s
  | none => false

/-- The role clamp of the signup route in src/unnamed/part_001:
`allowedRoles.includes(role) ? role : 'candidate'`. -/
def assignedRole (role : Option Str) : Str :=
  if jsIncludes [str r"candidate", str r"recruiter"] role then role.getD [] else str r"candidate"

/-- The user object serialised in the part_001 signup/login responses:
`{ id, name, email, role }`. -/
def authUserJson (u : UserRec) : Json :=
  .obj [(str r"id", .num u.id), (str r"name", .strv u.name),
        (str r"email", .strv u.email), (str r"role", .strv u.role)]

/-- The user object serialised in the routes/auth.js login response:
`{ id, name, email }` (no role claim there). -/
def userJsonRA (u : UserRec) : Json :=
  .obj [(str r"id", .num u.id), (str r"name", .strv u.name), (str r"email", .strv u.email)]

/-- POST /api/auth/signup of src/unnamed/part_001: validate, reject
duplicates, clamp the role, save (the pre-save hook hashes the plaintext
exactly once), then answer 201 with a fresh token and the public user. -/
def signupP1 (secret now salt freshId : Nat) (db : List UserRec) (b : SignupBody) :
    List UserRec × HttpResp :=
  if !signupValid b then
    (db, errorHandler { message := str r"Validation failed", statusCode := some 400 })
  else
    match findUserByEmail db b.email with
    | some _ => (db, errorHandler { message := str r"User already exists", statusCode := some 400 })
    | none =>
      let u0 : UserRec :=
        { id := freshId, name := b.name, email := b.email, password := b.password,
          role := assignedRole b.role }
      match mongooseSaveUser salt u0 with
      | .error e => (db, errorHandler e)
      | .ok u =>
        (db ++ [u],
         { status := 201,
           body := .obj [(str r"token", .strv (issueToken secret now u)),
                         (str r"user", authUserJson u)] })

/-- POST /api/auth/login of src/unnamed/part_001: look up by email, compare
with `matchPassword` (bcrypt.compare), and answer with a token and the public
user, or 400 Invalid credentials for both failure causes. -/
def loginP1 (secret now : Nat) (db : List UserRec) (email password : Str) : HttpResp :=
  match findUserByEmail db email with
  | none => errorHandler { message := str r"Invalid credentials", statusCode := some 400 }
  | some u =>
    if bcryptCompare password u.password then
      { status := 200,
        body := .obj [(str r"token", .strv (issueToken secret now u)),
                      (str r"user", authUserJson u)] }
    else errorHandler { message := str r"Invalid credentials", statusCode := some 400 }

/-- POST /api/auth/signup of src/routes/auth.js: this variant hashes the
password in the route (`bcrypt.hash(password, 10)`, salt `saltRoute`) and
then saves, so the pre-save hook hashes the already-hashed value again
(salt `saltHook`).  It answers 201 with only a message. -/
def signupRA (saltRoute saltHook freshId : Nat) (db : List UserRec) (b : SignupBody) :
    List UserRec × HttpResp :=
  if !signupValid b then
    (db, errorHandler { message := str r"Validation failed", statusCode := some 400 })
  else
    match findUserByEmail db b.email with
    | some _ => (db, errorHandler { message := str r"User already exists", statusCode := some 400 })
    | none =>
      let hashed := bcryptHash saltRoute b.password
      let u0 : UserRec :=
        { id := freshId, name := b.name, email := b.email, password := hashed,
          role := str r"candidate" }
      match mongooseSaveUser saltHook u0 with
      | .error e => (db, errorHandler e)
      | .ok u =>
        (db ++ [u],
         { status := 201, body := .obj [(str r"msg", .strv (str r"User registered successfully"))] })

/-- POST /api/auth/login of src/routes/auth.js: like the part_001 login but
the token payload carries only `userId` and the user object has no role. -/
def loginRA (secret now : Nat) (db : List UserRec) (email password : Str) : HttpResp :=
  match findUserByEmail db email with
  | none => errorHandler { message := str r"Invalid credentials", statusCode := some 400 }
  | some u =>
    if bcryptCompare password u.password then
      { status := 200,
        body := .obj [(str r"token",
                        .strv (jwtSignTok secret { userId := u.id, role := none, iat := now, exp := now + 3600 })),
                      (str r"user", userJsonRA u)] }
    else errorHandler { message := str r"Invalid credentials", statusCode := some 400 }

/-! ## Job Store: routes/jobs.js -/

/-- A persisted job document (schema per usage and the spec data model). -/
structure JobRec where
  id : Nat
  title : Str
  company : Str
  description : Str
  location : Str
  salary : Option Int
  user : Nat
  createdAt : Nat
deriving DecidableEq

/-- Serialisation `res.json(job)`: the serialised job document. -/
def jobJson (j : JobRec) : Json :=
  .obj ([(str r"_id", .num j.id), (str r"title", .strv j.title),
         (str r"company", .strv j.company), (str r"description", .strv j.description),
         (str r"location", .strv j.location)]
    ++ (match j.salary with | some n => [(str r"salary", .num n)] | none => [])
    ++ [(str r"user", .num j.user), (str r"createdAt", .num j.createdAt)])

/-- Lookup `Job.findOne({ _id: id, user: uid })`: every single-document lookup is
scoped to the requesting owner. -/
def findJob (db : List JobRec) (jid uid : Nat) : Option JobRec :=
  db.find? (fun j => j.id == jid && j.user == uid)

/-- The 404 response produced by `next(new CustomError('Job not found', 404))`. -/
def jobNotFoundResp : HttpResp :=
  errorHandler { message := str r"Job not found", statusCode := some 404 }

/-- GET /api/jobs/:id. -/
def getJobRoute (db : List JobRec) (uid jid : Nat) : HttpResp :=
  match findJob db jid uid with
  | none => jobNotFoundResp
  | some j => { status := 200, body := jobJson j }

/-- A PUT /api/jobs/:id request body: any subset of the job fields. -/
structure UpdateBody where
  title : Option Str
  company : Option Str
  description : Option Str
  location : Option Str
  salary : Option Int
deriving DecidableEq

/-- The optional express-validator rules of the update route. -/
def updateValidBody (b : UpdateBody) : Bool :=
  (match b.title with | some t => !t.isEmpty | none => true)
  && (match b.company with | some c => !c.isEmpty | none => true)
  && (match b.description with | some d => decide (10 ≤ d.length) | none => true)
  && (match b.location with | some l => !l.isEmpty | none => true)

/-- JS `provided || old` on a string field (empty string is falsy). -/
def jsOrField : Option Str → Str → Str
  | some v, old => if v.isEmpty then old else v
  | none, old => old

/-- JS `provided || old` on the numeric salary (`0` is falsy; the old value
may itself be absent). -/
def jsOrSalary : Option Int → Option Int → Option Int
  | some v, old => if v = 0 then old else some v
  | none, old => old

/-- PUT /api/jobs/:id as written in src/routes/jobs.js: merge with
`field || job.field`, save, and return the updated job. -/
def updateJobRoute (db : List JobRec) (uid jid : Nat) (b : UpdateBody) :
    List JobRec × HttpResp :=
  if !updateValidBody b then
    (db, errorHandler { message := str r"Validation failed", statusCode := some 400 })
  else
    match findJob db jid uid with
    | none => (db, jobNotFoundResp)
    | some j =>
      let j2 : JobRec :=
        { j with
          title := jsOrField b.title j.title,
          company := jsOrField b.company j.company,
          description := jsOrField b.description j.description,
          location := jsOrField b.location j.location,
          salary := jsOrSalary b.salary j.salary }
      (db.map (fun x => if x.id == j.id then j2 else x), { status := 200, body := jobJson j2 })

/-- The update merge of the second jobs variant (bundled after routes/auth.js),
which uses `field ?? job.field` instead of `||`. -/
def jsNullish {A : Type} : Option A → A → A
  | some v, _ => v
  | none, old => old

/-- PUT /api/jobs/:id of the second variant: nullish-coalescing merge. -/
def updateJobRouteNullish (db : List JobRec) (uid jid : Nat) (b : UpdateBody) :
    List JobRec × HttpResp :=
  if !updateValidBody b then
    (db, errorHandler { message := str r"Validation failed", statusCode := some 400 })
  else
    match findJob db jid uid with
    | none => (db, jobNotFoundResp)
    | some j =>
      let j2 : JobRec :=
        { j with
          title := jsNullish b.title j.title,
          company := jsNullish b.company j.company,
          description := jsNullish b.description j.description,
          location := jsNullish b.location j.location,
          salary := match b.salary with | some v => some v | none => j.salary }
      (db.map (fun x => if x.id == j.id then j2 else x), { status := 200, body := jobJson j2 })

/-- DELETE /api/jobs/:id: `Job.findOneAndDelete({ _id, user })`. -/
def deleteJobRoute (db : List JobRec) (uid jid : Nat) : List JobRec × HttpResp :=
  match findJob db jid uid with
  | none => (db, jobNotFoundResp)
  | some _ =>
    (db.eraseP (fun j => j.id == jid && j.user == uid),
     { status := 200, body := .obj [(str r"msg", .strv (str r"Job deleted successfully"))] })

/-- GET /api/jobs query parameters (page and limit already `parseInt`-ed,
defaults applied). -/
structure ListQuery where
  page : Nat
  limit : Nat
  search : Option Str
  company : Option Str
  location : Option Str
deriving DecidableEq

/-- JS truthiness of an optional string parameter. -/
def jsTruthy : Option Str → Bool
  | some s => !s.isEmpty
  | none => false

/-- Substring containment on character lists. -/
def hasSub : Str → Str → Bool
  | [], pat => pat.isEmpty
  | c :: rest, pat => pat.isPrefixOf (c :: rest) || hasSub rest pat

/-- Case-insensitive substring containment: model of the `$regex`/`$options:'i'`
filters (patterns are treated as literal text). -/
def containsCI (hay pat : Str) : Bool := hasSub (lowerStr hay) (lowerStr pat)

/-- The Mongo query built by GET /api/jobs: always scoped to the requester,
plus the optional search/company/location filters. -/
def matchesQuery (uid : Nat) (q : ListQuery) (j : JobRec) : Bool :=
  j.user == uid
  && (if jsTruthy q.search then
        containsCI j.title (q.search.getD []) || containsCI j.description (q.search.getD [])
      else true)
  && (if jsTruthy q.company then containsCI j.company (q.company.getD []) else true)
  && (if jsTruthy q.location then containsCI j.location (q.location.getD []) else true)

/-- The page of jobs served by GET /api/jobs: filter, sort newest first,
skip `(page-1)*limit`, take `limit`. -/
def listJobsPage (db : List JobRec) (uid : Nat) (q : ListQuery) : List JobRec :=
  (((db.filter (matchesQuery uid q)).mergeSort
      (fun a b => decide (b.createdAt ≤ a.createdAt))).drop ((q.page - 1) * q.limit)).take q.limit

/-- GET /api/jobs: the paginated, owner-scoped response. -/
def listJobsRoute (db : List JobRec) (uid : Nat) (q : ListQuery) : HttpResp :=
  let filtered := db.filter (matchesQuery uid q)
  { status := 200,
    body := .obj [(str r"success", .jbool true),
                  (str r"total", .num filtered.length),
                  (str r"page", .num q.page),
                  (str r"totalPages", .num (((filtered.length + q.limit - 1) / q.limit : Nat))),
                  (str r"jobs", .arr ((listJobsPage db uid q).map jobJson))] }

/-! ## Supporting lemmas -/

theorem isPrefixOf_append_self (l1 l2 : Str) : l1.isPrefixOf (l1 ++ l2) = true := by
  induction l1 with
  | nil => simp [List.isPrefixOf]
  | cons c rest ih => simp [List.isPrefixOf, ih]

theorem jsSplit_no_sep {sep : Char} {l : Str} (h : sep ∉ l) : jsSplit sep l = [l] := by
  induction l with
  | nil => rfl
  | cons c rest ih =>
    have hc : ¬(c = sep) := fun he => h (he ▸ List.mem_cons_self c rest)
    have hrest : sep ∉ rest := fun hm => h (List.mem_cons_of_mem c hm)
    rw [jsSplit]
    simp only [ih hrest]
    rw [if_neg hc]

theorem jsSplit_sep_append {sep : Char} {l1 : Str} (l2 : Str) (h : sep ∉ l1) :
    jsSplit sep (l1 ++ sep :: l2) = l1 :: jsSplit sep l2 := by
  induction l1 with
  | nil => simp [jsSplit]
  | cons c rest ih =>
    have hc : ¬(c = sep) := fun he => h (he ▸ List.mem_cons_self c rest)
    have hrest : sep ∉ rest := fun hm => h (List.mem_cons_of_mem c hm)
    rw [List.cons_append, jsSplit]
    simp only [ih hrest]
    rw [if_neg hc]

/-! ## C5: token issuance / verification roundtrip -/

theorem verify_issueToken (secret now : Nat) (u : UserRec) :
    jwtVerifyStr secret now (issueToken secret now u)
      = some { userId := u.id, role := some u.role, iat := now, exp := now + 3600 } := by
  rw [issueToken, jwtSignTok, jwtVerifyStr, tokenDec_tokenEnc]
  simp

/-- C5: a token issued by `issue(identity)` — signed with the process secret,
embedding subject id and role, expiry = issue time + one hour — verifies
successfully immediately after issuance and yields back the same subject id
and the same role. -/
theorem c5_issue_verify_roundtrip (secret now : Nat) (u : UserRec) :
    jwtVerifyStr secret now (issueToken secret now u)
      = some { userId := u.id, role := some u.role, iat := now, exp := now + 3600 } :=
  verify_issueToken secret now u

/-! ## C2: the Role Gate as configured on POST /api/jobs -/

/-- The 403 response that `authorize`'s CustomError yields after the error
handler. -/
def accessDeniedResp : HttpResp :=
  errorHandler { message := str r"Access denied: insufficient role", statusCode := some 403 }

/-- C2 (code evaluated at the failing input): because the job-creation route
passes the allowed roles as ONE array argument to a rest-parameter function,
the configured set is a single array value and `includes` compares it against
the string role, so EVERY string role — recruiter and admin included — is
rejected with 403, contradicting the claim that recruiter/admin pass. -/
theorem c2_jobs_gate_rejects_all_roles :
    (∀ r : Str, jobsCreateGate (JsVal.vstr r) = some accessDeniedResp)
    ∧ jobsCreateGate (JsVal.vstr (str r"recruiter")) = some accessDeniedResp
    ∧ jobsCreateGate (JsVal.vstr (str r"admin")) = some accessDeniedResp
    ∧ jobsCreateGate (JsVal.vstr (str r"candidate")) = some accessDeniedResp
    ∧ accessDeniedResp.status = 403 :=
  ⟨fun r => rfl, rfl, rfl, rfl, rfl⟩

/-- The behaviour the claim (and the route comments) intend: a gate whose
allowed set really is the two role strings accepts exactly those. -/
theorem authorize_spread_membership_exact (r : Str) :
    authorize [JsVal.vstr (str r"recruiter"), JsVal.vstr (str r"admin")] (JsVal.vstr r)
      = none ↔ (r = str r"recruiter" ∨ r = str r"admin") := by
  have hc : ([JsVal.vstr (str r"recruiter"), JsVal.vstr (str r"admin")].contains (JsVal.vstr r) = true)
      ↔ (r = str r"recruiter" ∨ r = str r"admin") := by
    rw [List.contains, List.elem_iff]
    simp [JsVal.vstr.injEq]
  by_cases h : r = str r"recruiter" ∨ r = str r"admin"
  · rw [authorize, if_pos (hc.mpr h)]
    simp [h]
  · have hf : ([JsVal.vstr (str r"recruiter"), JsVal.vstr (str r"admin")].contains (JsVal.vstr r)) = false := by
      rw [Bool.eq_false_iff]
      intro ht
      exact h (hc.mp ht)
    rw [authorize, hf]
    simp [h]

/-! ## C8: error translation -/

/-- The errors raised through `next(new CustomError(...))` across the routes. -/
def taxonomyErrors : List JsError :=
  [{ message := str r"Validation failed", statusCode := some 400 },
   { message := str r"User already exists", statusCode := some 400 },
   { message := str r"Invalid credentials", statusCode := some 400 },
   { message := str r"Access denied: insufficient role", statusCode := some 403 },
   { message := str r"Job not found", statusCode := some 404 }]

/-- C8 counterexample: the Auth Gate's 401 is NOT produced by the terminal
error-translation point — its body is `{msg: ...}`, which lacks the uniform
`{success:false, message}` shape. -/
theorem c8_counterexample_auth_gate_body :
    authMiddleware 0 0 none = .rejected noTokenResp
    ∧ noTokenResp.status = 401
    ∧ isUniformErrBody noTokenResp.body = false :=
  ⟨rfl, rfl, rfl⟩

/-- C8 (amended): every error forwarded to the terminal handler produces the
uniform `{success:false, message}` body, with status defaulting to 500 when
the error carries no status code; the whole CustomError taxonomy maps to its
declared codes.  (The Auth Gate's 401 and part_000's 403 bypass the handler
and use non-uniform bodies.) -/
theorem c8_uniform_error_translation :
    (∀ err : JsError, isUniformErrBody (errorHandler err).body = true)
    ∧ (∀ m : Str, (errorHandler { message := m, statusCode := none }).status = 500)
    ∧ (taxonomyErrors.map (fun e => (errorHandler e).status)) = [400, 400, 400, 403, 404]
    ∧ (taxonomyErrors.all (fun e => isUniformErrBody (errorHandler e).body)) = true :=
  ⟨fun err => rfl, fun m => rfl, rfl, rfl⟩

/-! ## C7: the Auth Gate -/

theorem space_not_mem_unaryEnc (n : Nat) : spaceChar ∉ unaryEnc n := by
  intro h
  rw [unaryEnc] at h
  rcases List.mem_append.mp h with h1 | h2
  · exact absurd (List.mem_replicate.mp h1).2 (by decide)
  · simp at h2
    exact absurd h2 (by decide)

theorem space_not_mem_roleEnc {r : Option Str} (h : ∀ s, r = some s → spaceChar ∉ s) :
    spaceChar ∉ roleEnc r := by
  intro hm
  cases r with
  | none =>
    simp [roleEnc] at hm
    exact absurd hm (by decide)
  | some s =>
    rw [roleEnc] at hm
    rcases List.mem_cons.mp hm with h1 | h2
    · exact absurd h1 (by decide)
    · rcases List.mem_append.mp h2 with h3 | h4
      · exact space_not_mem_unaryEnc _ h3
      · exact h s rfl h4

theorem space_not_mem_payloadEnc {p : JwtPayload} (h : ∀ s, p.role = some s → spaceChar ∉ s) :
    spaceChar ∉ payloadEnc p := by
  intro hm
  rw [payloadEnc] at hm
  rcases List.mem_append.mp hm with h1 | h4
  · rcases List.mem_append.mp h1 with h2 | h3
    · rcases List.mem_append.mp h2 with h5 | h6
      · exact space_not_mem_unaryEnc _ h5
      · exact space_not_mem_unaryEnc _ h6
    · exact space_not_mem_unaryEnc _ h3
  · exact space_not_mem_roleEnc h h4

theorem space_not_mem_issueToken (secret now : Nat) (u : UserRec) (h : spaceChar ∉ u.role) :
    spaceChar ∉ issueToken secret now u := by
  intro hm
  rw [issueToken, jwtSignTok, tokenEnc] at hm
  have hrole : ∀ s : Str,
      ({ userId := u.id, role := some u.role, iat := now, exp := now + 3600 } : JwtPayload).role
        = some s → spaceChar ∉ s := by
    intro s hs
    simp at hs
    exact hs ▸ h
  rcases List.mem_append.mp hm with h1 | h2
  · rcases List.mem_append.mp h1 with h3 | h4
    · exact space_not_mem_payloadEnc hrole h3
    · exact space_not_mem_unaryEnc _ h4
  · exact space_not_mem_payloadEnc hrole h2

/-- C7: the Auth Gate rejects a missing or non-bearer Authorization header
with 401 "No token" (before any verification — note the distinct message),
rejects a failing verification with 401 "Token invalid", and on success
attaches exactly the decoded claims and passes control on; in particular a
freshly issued token authenticates with the issuing identity's id and role. -/
theorem c7_auth_gate (secret now : Nat) :
    authMiddleware secret now none = .rejected noTokenResp
    ∧ (∀ h : Str, (str r"Bearer ").isPrefixOf h = false
        → authMiddleware secret now (some h) = .rejected noTokenResp)
    ∧ (∀ h tok : Str, (str r"Bearer ").isPrefixOf h = true
        → (jsSplit spaceChar h)[1]? = some tok
        → jwtVerifyStr secret now tok = none
        → authMiddleware secret now (some h) = .rejected badTokenResp)
    ∧ (∀ (h tok : Str) (p : JwtPayload), (str r"Bearer ").isPrefixOf h = true
        → (jsSplit spaceChar h)[1]? = some tok
        → jwtVerifyStr secret now tok = some p
        → authMiddleware secret now (some h) = .authed p)
    ∧ (∀ u : UserRec, spaceChar ∉ u.role
        → authMiddleware secret now (some (str r"Bearer " ++ issueToken secret now u))
            = .authed { userId := u.id, role := some u.role, iat := now, exp := now + 3600 }) := by
  refine ⟨rfl, ?_, ?_, ?_, ?_⟩
  · intro h hpre
    simp [authMiddleware, hpre]
  · intro h tok hpre hsplit hver
    simp [authMiddleware, hpre, hsplit, hver]
  · intro h tok p hpre hsplit hver
    simp [authMiddleware, hpre, hsplit, hver]
  · intro u hrole
    have htok : spaceChar ∉ issueToken secret now u := space_not_mem_issueToken secret now u hrole
    have hhdr : str r"Bearer " ++ issueToken secret now u
        = str r"Bearer" ++ spaceChar :: issueToken secret now u := by
      have hb : str r"Bearer " = str r"Bearer" ++ [spaceChar] := by decide
      rw [hb, List.append_assoc]
      rfl
    have hpre : (str r"Bearer ").isPrefixOf (str r"Bearer " ++ issueToken secret now u) = true :=
      isPrefixOf_append_self _ _
    have hsplit : jsSplit spaceChar (str r"Bearer " ++ issueToken secret now u)
        = [str r"Bearer", issueToken secret now u] := by
      rw [hhdr, jsSplit_sep_append _ (by decide), jsSplit_no_sep htok]
    simp [authMiddleware, hpre, hsplit, verify_issueToken]

/-- The identity used to instantiate the Auth Gate theorem. -/
def c7User : UserRec :=
  { id := 5, name := str r"Ann", email := str r"ann@x.com",
    password := str r"pw1234", role := str r"recruiter" }

/-- Witness for C7: a freshly issued token for a concrete recruiter passes
the gate and attaches the decoded claims. -/
theorem c7_auth_gate_witness :
    spaceChar ∉ c7User.role
    ∧ authMiddleware 1 2 (some (str r"Bearer " ++ issueToken 1 2 c7User))
        = .authed { userId := 5, role := some (str r"recruiter"), iat := 2, exp := 2 + 3600 } :=
  ⟨by decide, (c7_auth_gate 1 2).2.2.2.2 c7User (by decide)⟩

/-! ## C6: invalid-credential indistinguishability -/

/-- The exact response both login failure causes produce. -/
def invalidCredResp : HttpResp :=
  errorHandler { message := str r"Invalid credentials", statusCode := some 400 }

/-- C6: a login with an unregistered email and a login with a registered
email but wrong password produce the very same observable outcome — status
400 with message "Invalid credentials" (in particular not 404). -/
theorem c6_login_indistinguishable (secret now : Nat) (db1 db2 : List UserRec)
    (e1 pw1 e2 pw2 : Str) (u : UserRec)
    (h1 : findUserByEmail db1 e1 = none)
    (h2 : findUserByEmail db2 e2 = some u)
    (h3 : bcryptCompare pw2 u.password = false) :
    loginP1 secret now db1 e1 pw1 = loginP1 secret now db2 e2 pw2
    ∧ loginP1 secret now db1 e1 pw1
        = { status := 400,
            body := .obj [(str r"success", .jbool false),
                          (str r"message", .strv (str r"Invalid credentials"))] } := by
  have ha : loginP1 secret now db1 e1 pw1 = invalidCredResp := by
    simp only [loginP1, h1, invalidCredResp]
  have hb : loginP1 secret now db2 e2 pw2 = invalidCredResp := by
    simp only [loginP1, h2, h3, invalidCredResp]
    rfl
  exact ⟨ha.trans hb.symm, ha⟩

/-- A concrete registered user for the C6 witness. -/
def c6User : UserRec :=
  { id := 3, name := str r"Bob", email := str r"bob@x.com",
    password := bcryptHash 2 (str r"secret1"), role := str r"candidate" }

/-- Witness for C6 at concrete inputs: empty store vs. wrong password. -/
theorem c6_login_indistinguishable_witness :
    findUserByEmail [] (str r"ghost@x.com") = none
    ∧ findUserByEmail [c6User] (str r"bob@x.com") = some c6User
    ∧ bcryptCompare (str r"wrong1") c6User.password = false
    ∧ loginP1 0 0 [] (str r"ghost@x.com") (str r"pw1234")
        = loginP1 0 0 [c6User] (str r"bob@x.com") (str r"wrong1") :=
  ⟨by decide, by decide, by decide,
   (c6_login_indistinguishable 0 0 [] [c6User] (str r"ghost@x.com") (str r"pw1234")
      (str r"bob@x.com") (str r"wrong1") c6User (by decide) (by decide) (by decide)).1⟩

/-! ## C3: the signup role clamp (src/unnamed/part_001) -/

theorem mem_dropWhile_of_mem {p : Char → Bool} {a : Char} {l : Str}
    (hm : a ∈ l) (hp : p a = false) : a ∈ l.dropWhile p := by
  induction l with
  | nil => exact absurd hm (List.not_mem_nil a)
  | cons b rest ih =>
    rw [List.dropWhile]
    cases hb : p b with
    | true =>
      rcases List.mem_cons.mp hm with he | hr
      · rw [he] at hp; rw [hp] at hb; exact absurd hb (by decide)
      · exact ih hr
    | false => exact hm

theorem mem_trimStr {a : Char} {l : Str} (hm : a ∈ l) (hw : a.isWhitespace = false) :
    a ∈ trimStr l := by
  rw [trimStr]
  apply List.mem_reverse.mpr
  apply mem_dropWhile_of_mem _ hw
  apply List.mem_reverse.mpr
  exact mem_dropWhile_of_mem hm hw

/-- The separated pieces re-joined with the separator. -/
def joinSep (sep : Char) : List Str → Str
  | [] => []
  | [x] => x
  | x :: y :: xs => x ++ sep :: joinSep sep (y :: xs)

theorem jsSplit_ne_nil (sep : Char) (l : Str) : jsSplit sep l ≠ [] := by
  cases l with
  | nil => simp [jsSplit]
  | cons c cs =>
    rw [jsSplit]
    by_cases h : c = sep
    · simp [h]
    · simp only [if_neg h]
      cases jsSplit sep cs with
      | nil => simp
      | cons r rs => simp

theorem joinSep_jsSplit (sep : Char) (l : Str) : joinSep sep (jsSplit sep l) = l := by
  induction l with
  | nil => rfl
  | cons c cs ih =>
    rw [jsSplit]
    by_cases h : c = sep
    · rw [if_pos h]
      cases hs : jsSplit sep cs with
      | nil => exact absurd hs (jsSplit_ne_nil sep cs)
      | cons r rs =>
        rw [hs] at ih
        rw [joinSep, h, ih]
        rfl
    · rw [if_neg h]
      cases hs : jsSplit sep cs with
      | nil => exact absurd hs (jsSplit_ne_nil sep cs)
      | cons r rs =>
        rw [hs] at ih
        cases rs with
        | nil =>
          rw [joinSep] at ih
          simp only [joinSep]
          rw [ih]
        | cons r2 rs2 =>
          rw [joinSep] at ih
          simp only [joinSep]
          rw [List.cons_append, ih]

theorem isEmail_at_mem {e : Str} (h : isEmail e = true) : '@' ∈ e := by
  cases hsp : jsSplit '@' e with
  | nil => exact absurd hsp (jsSplit_ne_nil '@' e)
  | cons a tl =>
    cases tl with
    | nil => rw [isEmail, hsp] at h; simp at h
    | cons b tl2 =>
      cases tl2 with
      | nil =>
        have hj := joinSep_jsSplit '@' e
        rw [hsp] at hj
        rw [joinSep] at hj
        rw [← hj]
        simp
      | cons d tl3 => rw [isEmail, hsp] at h; simp at h

theorem email_saved_nonempty {e : Str} (h : isEmail e = true) :
    (lowerStr (trimStr e)).isEmpty = false := by
  have hat : '@' ∈ trimStr e := mem_trimStr (isEmail_at_mem h) (by decide)
  cases htr : trimStr e with
  | nil => rw [htr] at hat; exact absurd hat (List.not_mem_nil _)
  | cons c cs => simp [lowerStr, htr, List.isEmpty]

/-- The document a successful part_001 signup persists: setters applied,
password hashed once, role clamped. -/
def savedUser (salt freshId : Nat) (b : SignupBody) : UserRec :=
  { id := freshId, name := trimStr b.name, email := lowerStr (trimStr b.email),
    password := bcryptHash salt b.password, role := assignedRole b.role }

theorem assignedRole_in_enum (r : Option Str) :
    ([str r"admin", str r"recruiter", str r"candidate"].contains (assignedRole r)) = true := by
  rw [assignedRole]
  by_cases h : jsIncludes [str r"candidate", str r"recruiter"] r = true
  · rw [if_pos h]
    cases r with
    | none => simp [jsIncludes] at h
    | some s =>
      rw [jsIncludes] at h
      have hm : s ∈ [str r"candidate", str r"recruiter"] := by
        rw [List.contains] at h
        exact List.elem_iff.mp h
      rcases List.mem_cons.mp hm with he | hm2
      · subst he; decide
      · rcases List.mem_cons.mp hm2 with he | hm3
        · subst he; decide
        · exact absurd hm3 (List.not_mem_nil s)
  · rw [if_neg h]
    decide

theorem signupValid_parts {b : SignupBody} (h : signupValid b = true) :
    notEmpty b.name = true ∧ isEmail b.email = true ∧ 6 ≤ b.password.length := by
  rw [signupValid, Bool.and_assoc] at h
  rcases Bool.and_eq_true_iff.mp h with ⟨hn, h2⟩
  rcases Bool.and_eq_true_iff.mp h2 with ⟨he, hp⟩
  exact ⟨hn, he, of_decide_eq_true hp⟩

/-- On a valid, non-duplicate signup the part_001 route persists exactly
`savedUser` and answers 201 with a fresh token and the public user object. -/
theorem signupP1_success (secret now salt freshId : Nat) (db : List UserRec) (b : SignupBody)
    (hval : signupValid b = true) (hdup : findUserByEmail db b.email = none)
    (hname : (trimStr b.name).isEmpty = false) :
    signupP1 secret now salt freshId db b
      = (db ++ [savedUser salt freshId b],
         { status := 201,
           body := .obj [(str r"token", .strv (issueToken secret now (savedUser salt freshId b))),
                         (str r"user", authUserJson (savedUser salt freshId b))] }) := by
  have hemail : isEmail b.email = true := (signupValid_parts hval).2.1
  have hne : (lowerStr (trimStr b.email)).isEmpty = false := email_saved_nonempty hemail
  have hpw : ¬((bcryptHash salt b.password).length < 6) := by
    rw [length_bcryptHash]; omega
  simp only [signupP1, hval, Bool.not_true, Bool.false_eq_true, if_false, hdup,
    mongooseSaveUser, hname, hne, hpw, assignedRole_in_enum, Bool.not_false,
    Bool.true_eq_false, if_true, savedUser]

/-- C3: the signup role clamp — a requested role outside
candidate/recruiter (in particular "admin", or an absent role) is stored as
"candidate"; candidate/recruiter are stored as requested. -/
theorem c3_role_clamp (secret now salt freshId : Nat) (db : List UserRec) (b : SignupBody)
    (hval : signupValid b = true) (hdup : findUserByEmail db b.email = none)
    (hname : (trimStr b.name).isEmpty = false) :
    ∃ u : UserRec, (signupP1 secret now salt freshId db b).1 = db ++ [u]
      ∧ u.role = assignedRole b.role
      ∧ (b.role = none → u.role = str r"candidate")
      ∧ (∀ r : Str, b.role = some r → r ≠ str r"candidate" → r ≠ str r"recruiter"
          → u.role = str r"candidate")
      ∧ (b.role = some (str r"candidate") → u.role = str r"candidate")
      ∧ (b.role = some (str r"recruiter") → u.role = str r"recruiter") := by
  refine ⟨savedUser salt freshId b, ?_, rfl, ?_, ?_, ?_, ?_⟩
  · rw [signupP1_success secret now salt freshId db b hval hdup hname]
  · intro hr
    simp [savedUser, assignedRole, hr, jsIncludes]
  · intro r hr h1 h2
    have hinc : jsIncludes [str r"candidate", str r"recruiter"] b.role = false := by
      rw [hr, jsIncludes, Bool.eq_false_iff]
      intro ht
      rw [List.contains] at ht
      rcases List.mem_cons.mp (List.elem_iff.mp ht) with he | hm2
      · exact h1 he
      · rcases List.mem_cons.mp hm2 with he | hm3
        · exact h2 he
        · exact List.not_mem_nil r hm3
    simp [savedUser, assignedRole, hinc]
  · intro hr
    show assignedRole b.role = str r"candidate"
    rw [hr]
    decide
  · intro hr
    show assignedRole b.role = str r"recruiter"
    rw [hr]
    decide

/-- The signup body used to instantiate the role-clamp theorem: it requests
role "admin". -/
def c3Body : SignupBody :=
  { name := str r"Eve", email := str r"eve@x.com", password := str r"secret1",
    role := some (str r"admin") }

/-- Witness for C3: a concrete signup requesting "admin" stores "candidate". -/
theorem c3_role_clamp_witness :
    signupValid c3Body = true
    ∧ findUserByEmail [] c3Body.email = none
    ∧ (trimStr c3Body.name).isEmpty = false
    ∧ assignedRole (some (str r"admin")) = str r"candidate"
    ∧ ((signupP1 0 0 1 7 [] c3Body).1.map (fun u => u.role)) = [str r"candidate"]
    ∧ (∃ u : UserRec, (signupP1 0 0 1 7 [] c3Body).1 = [] ++ [u]
        ∧ u.role = assignedRole c3Body.role
        ∧ (c3Body.role = none → u.role = str r"candidate")
        ∧ (∀ r : Str, c3Body.role = some r → r ≠ str r"candidate" → r ≠ str r"recruiter"
            → u.role = str r"candidate")
        ∧ (c3Body.role = some (str r"candidate") → u.role = str r"candidate")
        ∧ (c3Body.role = some (str r"recruiter") → u.role = str r"recruiter")) :=
  ⟨by decide, by decide, by decide, by decide, by decide,
   c3_role_clamp 0 0 1 7 [] c3Body (by decide) (by decide) (by decide)⟩

/-! ## C1: signup/login roundtrip -/

/-- The valid signup of the spec scenario. -/
def aliceBody : SignupBody :=
  { name := str r"Alice", email := str r"alice@x.com", password := str r"secret1", role := none }

/-- C1 evaluated on src/routes/auth.js (the variant mounted by index.js):
the route hashes the password itself AND the User pre-save hook hashes the
result again, so the store holds a double hash; login compares the plaintext
against it and always fails with 400 Invalid credentials.  The stored value
is (as claimed) never the plaintext, but the login-success half of the claim
is violated on every input. -/
theorem c1_double_hash_breaks_login :
    (signupRA 2 3 7 [] aliceBody).2.status = 201
    ∧ (signupRA 2 3 7 [] aliceBody).1
        = [{ id := 7, name := str r"Alice", email := str r"alice@x.com",
             password := bcryptHash 3 (bcryptHash 2 (str r"secret1")),
             role := str r"candidate" }]
    ∧ bcryptHash 3 (bcryptHash 2 (str r"secret1")) ≠ str r"secret1"
    ∧ loginRA 5 0 (signupRA 2 3 7 [] aliceBody).1 (str r"alice@x.com") (str r"secret1")
        = invalidCredResp :=
  ⟨rfl, by decide, by decide, rfl⟩

/-- The intended behaviour, realised by the src/unnamed/part_001 variant
(which saves the plaintext and lets the pre-save hook hash exactly once):
login with the original password succeeds with 200 and a token, any other
password fails with Invalid credentials, and the stored value is a hash,
never the plaintext. -/
theorem signup_then_login_roundtrip_p1 (secret now salt freshId : Nat) (b : SignupBody)
    (hval : signupValid b = true) (hdup : findUserByEmail [] b.email = none)
    (hname : (trimStr b.name).isEmpty = false) :
    loginP1 secret now (signupP1 secret now salt freshId [] b).1 b.email b.password
      = { status := 200,
          body := .obj [(str r"token", .strv (issueToken secret now (savedUser salt freshId b))),
                        (str r"user", authUserJson (savedUser salt freshId b))] }
    ∧ (∀ q : Str, q ≠ b.password
        → loginP1 secret now (signupP1 secret now salt freshId [] b).1 b.email q = invalidCredResp)
    ∧ (savedUser salt freshId b).password ≠ b.password := by
  have hdb : (signupP1 secret now salt freshId [] b).1 = [savedUser salt freshId b] := by
    rw [signupP1_success secret now salt freshId [] b hval hdup hname]
    rfl
  have hfind : findUserByEmail [savedUser salt freshId b] b.email = some (savedUser salt freshId b) := by
    rw [findUserByEmail, List.find?]
    have hb : ((savedUser salt freshId b).email == lowerStr (trimStr b.email)) = true := by
      simp [savedUser]
    rw [hb]
  refine ⟨?_, ?_, bcryptHash_ne_plaintext salt b.password⟩
  · rw [hdb]
    simp only [loginP1, hfind]
    have hc : bcryptCompare b.password (savedUser salt freshId b).password = true :=
      bcryptCompare_hash_self b.password salt
    rw [hc]
    simp
  · intro q hq
    rw [hdb]
    simp only [loginP1, hfind]
    have hc : bcryptCompare q (savedUser salt freshId b).password = false :=
      bcryptCompare_hash_ne q b.password salt hq
    rw [hc]
    simp [invalidCredResp]

/-! ## C10: responses never carry the stored password -/

/-- C10: successful signup/login responses expose exactly id, name, email
and role (id, name, email in the routes/auth.js login variant) — never a
password key — and the issued token is a function of subject id and role
only, independent of the stored password hash. -/
theorem c10_no_password_in_responses (secret now : Nat) :
    (∀ u : UserRec, Json.keysOf (authUserJson u)
        = [str r"id", str r"name", str r"email", str r"role"]
      ∧ str r"password" ∉ Json.keysOf (authUserJson u))
    ∧ (∀ u : UserRec, Json.keysOf (userJsonRA u) = [str r"id", str r"name", str r"email"]
      ∧ str r"password" ∉ Json.keysOf (userJsonRA u))
    ∧ (∀ (db : List UserRec) (e p : Str) (u : UserRec), findUserByEmail db e = some u
        → bcryptCompare p u.password = true
        → loginP1 secret now db e p
            = { status := 200,
                body := .obj [(str r"token", .strv (issueToken secret now u)),
                              (str r"user", authUserJson u)] })
    ∧ (∀ u w : UserRec, u.id = w.id → u.role = w.role
        → issueToken secret now u = issueToken secret now w)
    ∧ (∀ (salt freshId : Nat) (db : List UserRec) (b : SignupBody), signupValid b = true
        → findUserByEmail db b.email = none
        → (trimStr b.name).isEmpty = false
        → ∃ u : UserRec, signupP1 secret now salt freshId db b
            = (db ++ [u],
               { status := 201,
                 body := .obj [(str r"token", .strv (issueToken secret now u)),
                               (str r"user", authUserJson u)] })) := by
  refine ⟨fun u => ⟨rfl, ?_⟩, fun u => ⟨rfl, ?_⟩, ?_, ?_, ?_⟩
  · have h : Json.keysOf (authUserJson u) = [str r"id", str r"name", str r"email", str r"role"] := rfl
    rw [h]; decide
  · have h : Json.keysOf (userJsonRA u) = [str r"id", str r"name", str r"email"] := rfl
    rw [h]; decide
  · intro db e p u hf hc
    simp only [loginP1, hf, hc]
    rfl
  · intro u w h1 h2
    rw [issueToken, issueToken, h1, h2]
  · intro salt freshId db b hval hdup hname
    exact ⟨savedUser salt freshId b, signupP1_success secret now salt freshId db b hval hdup hname⟩

/-- The registered user for the C10 witness. -/
def c10User : UserRec :=
  { id := 4, name := str r"Dan", email := str r"dan@x.com",
    password := bcryptHash 1 (str r"secret1"), role := str r"recruiter" }

/-- Witness for C10: a concrete successful login whose body consists of the
token and the four public user fields. -/
theorem c10_no_password_in_responses_witness :
    findUserByEmail [c10User] (str r"dan@x.com") = some c10User
    ∧ bcryptCompare (str r"secret1") c10User.password = true
    ∧ loginP1 0 0 [c10User] (str r"dan@x.com") (str r"secret1")
        = { status := 200,
            body := .obj [(str r"token", .strv (issueToken 0 0 c10User)),
                          (str r"user", authUserJson c10User)] } :=
  ⟨by decide, by decide,
   (c10_no_password_in_responses 0 0).2.2.1 [c10User] (str r"dan@x.com") (str r"secret1")
     c10User (by decide) (by decide)⟩

/-! ## C9: the PUT /api/jobs/:id merge -/

/-- A job with a set salary, owned by identity 9. -/
def c9Job : JobRec :=
  { id := 1, title := str r"Dev", company := str r"Acme",
    description := str r"Build useful things", location := str r"Remote",
    salary := some 5, user := 9, createdAt := 0 }

/-- An update request that provides only `salary: 0`. -/
def c9Body : UpdateBody :=
  { title := none, company := none, description := none, location := none, salary := some 0 }

/-- C9 counterexample: on the `||` merge of src/routes/jobs.js a provided
salary of 0 is falsy, so the update answers 200 "updated" while the stored
salary silently stays 5 — the provided field does NOT equal the provided
value in the result. -/
theorem c9_counterexample_salary_zero_ignored :
    c9Body.salary = some 0
    ∧ updateValidBody c9Body = true
    ∧ updateJobRoute [c9Job] 9 1 c9Body = ([c9Job], { status := 200, body := jobJson c9Job })
    ∧ c9Job.salary = some 5 :=
  ⟨rfl, rfl, rfl, rfl⟩

theorem isEmpty_false_of_ten_le {t : Str} (h : 10 ≤ t.length) : t.isEmpty = false := by
  cases t with
  | nil => simp at h
  | cons a l => rfl

theorem updateValidBody_parts {b : UpdateBody} (h : updateValidBody b = true) :
    (∀ t, b.title = some t → t.isEmpty = false)
    ∧ (∀ t, b.company = some t → t.isEmpty = false)
    ∧ (∀ t, b.description = some t → t.isEmpty = false)
    ∧ (∀ t, b.location = some t → t.isEmpty = false) := by
  rw [updateValidBody] at h
  rcases Bool.and_eq_true_iff.mp h with ⟨h3, hl⟩
  rcases Bool.and_eq_true_iff.mp h3 with ⟨h2, hd⟩
  rcases Bool.and_eq_true_iff.mp h2 with ⟨ht, hc⟩
  refine ⟨?_, ?_, ?_, ?_⟩
  · intro t he; rw [he] at ht; simpa using ht
  · intro t he; rw [he] at hc; simpa using hc
  · intro t he
    rw [he] at hd
    exact isEmpty_false_of_ten_le (by simpa using hd)
  · intro t he; rw [he] at hl; simpa using hl

/-- C9 (amended): for an owned job and a valid body, provided fields are
stored and returned, unprovided fields (and id/owner/timestamps) are
unchanged, and the route answers 200 with the updated job — EXCEPT that the
`||` merge treats a provided salary of 0 as absent, so the salary clause
holds only for nonzero provided salaries. -/
theorem c9_update_frame (db : List JobRec) (uid jid : Nat) (b : UpdateBody) (j : JobRec)
    (hfind : findJob db jid uid = some j)
    (hval : updateValidBody b = true)
    (hsal : ∀ v : Int, b.salary = some v → v ≠ 0) :
    ∃ j2 : JobRec,
      updateJobRoute db uid jid b
        = (db.map (fun x => if x.id == j.id then j2 else x),
           { status := 200, body := jobJson j2 })
      ∧ (∀ t, b.title = some t → j2.title = t)
      ∧ (b.title = none → j2.title = j.title)
      ∧ (∀ t, b.company = some t → j2.company = t)
      ∧ (b.company = none → j2.company = j.company)
      ∧ (∀ t, b.description = some t → j2.description = t)
      ∧ (b.description = none → j2.description = j.description)
      ∧ (∀ t, b.location = some t → j2.location = t)
      ∧ (b.location = none → j2.location = j.location)
      ∧ (∀ v, b.salary = some v → j2.salary = some v)
      ∧ (b.salary = none → j2.salary = j.salary)
      ∧ j2.id = j.id ∧ j2.user = j.user ∧ j2.createdAt = j.createdAt := by
  have hvp := updateValidBody_parts hval
  refine ⟨{ j with
      title := jsOrField b.title j.title,
      company := jsOrField b.company j.company,
      description := jsOrField b.description j.description,
      location := jsOrField b.location j.location,
      salary := jsOrSalary b.salary j.salary }, ?_, ?_, ?_, ?_, ?_, ?_, ?_, ?_, ?_, ?_, ?_, rfl, rfl, rfl⟩
  · simp only [updateJobRoute, hval, Bool.not_true, Bool.false_eq_true, if_false, hfind]
  · intro t ht
    show jsOrField b.title j.title = t
    rw [ht, jsOrField, hvp.1 t ht]
    rfl
  · intro ht
    show jsOrField b.title j.title = j.title
    rw [ht, jsOrField]
  · intro t ht
    show jsOrField b.company j.company = t
    rw [ht, jsOrField, hvp.2.1 t ht]
    rfl
  · intro ht
    show jsOrField b.company j.company = j.company
    rw [ht, jsOrField]
  · intro t ht
    show jsOrField b.description j.description = t
    rw [ht, jsOrField, hvp.2.2.1 t ht]
    rfl
  · intro ht
    show jsOrField b.description j.description = j.description
    rw [ht, jsOrField]
  · intro t ht
    show jsOrField b.location j.location = t
    rw [ht, jsOrField, hvp.2.2.2 t ht]
    rfl
  · intro ht
    show jsOrField b.location j.location = j.location
    rw [ht, jsOrField]
  · intro v hv
    show jsOrSalary b.salary j.salary = some v
    rw [hv, jsOrSalary, if_neg (hsal v hv)]
  · intro hv
    show jsOrSalary b.salary j.salary = j.salary
    rw [hv, jsOrSalary]

/-- A job without salary, owned by identity 4. -/
def c9Job2 : JobRec :=
  { id := 2, title := str r"Ops", company := str r"Acme",
    description := str r"Keep the lights on", location := str r"Berlin",
    salary := none, user := 4, createdAt := 1 }

/-- An update providing a new title and a nonzero salary. -/
def c9Body2 : UpdateBody :=
  { title := some (str r"Senior Ops"), company := none, description := none,
    location := none, salary := some 3 }

/-- Witness for C9 (amended) at a concrete owned job and body. -/
theorem c9_update_frame_witness :
    findJob [c9Job2] 2 4 = some c9Job2
    ∧ updateValidBody c9Body2 = true
    ∧ (∀ v : Int, c9Body2.salary = some v → v ≠ 0)
    ∧ (∃ j2 : JobRec,
        updateJobRoute [c9Job2] 4 2 c9Body2
          = ([c9Job2].map (fun x => if x.id == c9Job2.id then j2 else x),
             { status := 200, body := jobJson j2 })
        ∧ (∀ t, c9Body2.title = some t → j2.title = t)
        ∧ (c9Body2.title = none → j2.title = c9Job2.title)
        ∧ (∀ t, c9Body2.company = some t → j2.company = t)
        ∧ (c9Body2.company = none → j2.company = c9Job2.company)
        ∧ (∀ t, c9Body2.description = some t → j2.description = t)
        ∧ (c9Body2.description = none → j2.description = c9Job2.description)
        ∧ (∀ t, c9Body2.location = some t → j2.location = t)
        ∧ (c9Body2.location = none → j2.location = c9Job2.location)
        ∧ (∀ v, c9Body2.salary = some v → j2.salary = some v)
        ∧ (c9Body2.salary = none → j2.salary = c9Job2.salary)
        ∧ j2.id = c9Job2.id ∧ j2.user = c9Job2.user ∧ j2.createdAt = c9Job2.createdAt) := by
  have hsal : ∀ v : Int, c9Body2.salary = some v → v ≠ 0 := by
    intro v hv h0
    rw [show c9Body2.salary = some 3 from rfl] at hv
    rw [h0] at hv
    exact absurd (Option.some.injEq _ _ ▸ hv) (by decide)
  exact ⟨by decide, by decide, hsal,
    c9_update_frame [c9Job2] 4 2 c9Body2 c9Job2 (by decide) (by decide) hsal⟩

/-! ## C4: owner-scoped job access -/

theorem findJob_none_of_other_owner {db : List JobRec} {j : JobRec} {uid : Nat}
    (hmem : j ∈ db) (hown : j.user ≠ uid) (hnd : (db.map (fun x => x.id)).Nodup) :
    findJob db j.id uid = none := by
  rw [findJob]
  apply List.find?_eq_none.mpr
  intro x hx hp
  rcases Bool.and_eq_true_iff.mp hp with ⟨hid, hus⟩
  have hid2 : x.id = j.id := by simpa using hid
  have hus2 : x.user = uid := by simpa using hus
  have hxj : x = j := List.inj_on_of_nodup_map hnd hx hmem hid2
  exact hown (hxj ▸ hus2)

theorem findJob_some_owner {db : List JobRec} {jid uid : Nat} {x : JobRec}
    (h : findJob db jid uid = some x) : x.user = uid := by
  have hp := List.find?_some h
  rcases Bool.and_eq_true_iff.mp hp with ⟨_, hus⟩
  simpa using hus

/-- C4: for any job record owned by a different identity, GET/PUT/DELETE on
its id answer exactly the 404 "Job not found" error (the uniform not-found
response, never the job's data), the store is left untouched, the job never
appears in any list page served to the requester, and every job a scoped
lookup returns — hence every job read or modified — is owned by the
requester. -/
theorem c4_cross_tenant_not_found (db : List JobRec) (uid : Nat) (j : JobRec)
    (hmem : j ∈ db) (hown : j.user ≠ uid) (hnd : (db.map (fun x => x.id)).Nodup) :
    getJobRoute db uid j.id = jobNotFoundResp
    ∧ (∀ b : UpdateBody, updateValidBody b = true
        → updateJobRoute db uid j.id b = (db, jobNotFoundResp))
    ∧ deleteJobRoute db uid j.id = (db, jobNotFoundResp)
    ∧ (∀ (q : ListQuery) (x : JobRec), x ∈ listJobsPage db uid q → x.user = uid)
    ∧ (∀ q : ListQuery, j ∉ listJobsPage db uid q)
    ∧ (∀ (i : Nat) (x : JobRec), findJob db i uid = some x → x.user = uid) := by
  have hfn : findJob db j.id uid = none := findJob_none_of_other_owner hmem hown hnd
  have hpage : ∀ (q : ListQuery) (x : JobRec), x ∈ listJobsPage db uid q → x.user = uid := by
    intro q x hx
    have h1 : x ∈ (db.filter (matchesQuery uid q)).mergeSort
        (fun a b => decide (b.createdAt ≤ a.createdAt)) :=
      List.mem_of_mem_drop (List.mem_of_mem_take hx)
    have h2 : x ∈ db.filter (matchesQuery uid q) := List.mem_mergeSort.mp h1
    have h3 := (List.mem_filter.mp h2).2
    rw [matchesQuery] at h3
    rcases Bool.and_eq_true_iff.mp h3 with ⟨h4, _⟩
    rcases Bool.and_eq_true_iff.mp h4 with ⟨h5, _⟩
    rcases Bool.and_eq_true_iff.mp h5 with ⟨h6, _⟩
    simpa using h6
  refine ⟨?_, ?_, ?_, hpage, ?_, ?_⟩
  · simp only [getJobRoute, hfn]
  · intro b hb
    simp only [updateJobRoute, hb, Bool.not_true, Bool.false_eq_true, if_false, hfn]
  · simp only [deleteJobRoute, hfn]
  · intro q hjin
    exact hown (hpage q j hjin)
  · intro i x hfx
    exact findJob_some_owner hfx

/-- A job owned by identity 2, targeted by requester 1 in the C4 witness. -/
def c4Job : JobRec :=
  { id := 10, title := str r"QA", company := str r"Beta",
    description := str r"Test all the things", location := str r"Paris",
    salary := some 7, user := 2, createdAt := 3 }

/-- Witness for C4: requester 1 gets the uniform 404 for the job of owner 2,
and the store is unchanged by the attempted update/delete. -/
theorem c4_cross_tenant_not_found_witness :
    c4Job ∈ [c4Job]
    ∧ c4Job.user ≠ 1
    ∧ ([c4Job].map (fun x => x.id)).Nodup
    ∧ getJobRoute [c4Job] 1 c4Job.id = jobNotFoundResp
    ∧ deleteJobRoute [c4Job] 1 c4Job.id = ([c4Job], jobNotFoundResp) := by
  have h := c4_cross_tenant_not_found [c4Job] 1 c4Job (by decide) (by decide) (by decide)
  exact ⟨by decide, by decide, by decide, h.1, h.2.2.1⟩
